import Mathlib

/-!
# QueueCTL engine: shallow embedding

A shallow embedding of the QueueCTL job-queue engine
(`queuectl/models.py`, `queuectl/storage.py`, `queuectl/scheduler.py`,
`queuectl/worker.py`) and proofs about its claimed properties.

Modelling conventions:
* The SQLite `jobs` table is a `List Job`; SQL `UPDATE ... WHERE` statements
  become `List.map` with the row condition, and their `rowcount > 0` result
  becomes `List.any` of the same condition.  `UPDATE` statements in the source
  never touch `id` or `created_at`, which `applyUpdate` reflects.
* ISO-8601 UTC timestamp strings (which SQLite compares lexicographically,
  consistently with time order) are modelled as natural numbers.
* Python string truthiness (`if error:`) is modelled by `truthyStr`;
  Python `or` on optionals (`job.timeout or self.timeout`) by `pyOrNat` /
  `pyOrStr` (with `0` and `""` falsy).
* The executor's child process is abstracted by `ProcBehavior`: how long the
  command would run, the stdout/stderr/exit code it produces when it finishes,
  and the output it has already produced if it is killed early.
-/

namespace QueueCTL

/-- The five job states of `JobState` in `models.py`. -/
inductive JobState where
  | pending
  | processing
  | completed
  | failed
  | dead
deriving DecidableEq, Repr

/-- The `Job` dataclass of `models.py` (timestamps as naturals). -/
structure Job where
  id : String
  command : String
  state : JobState
  attempts : Nat
  max_retries : Nat
  created_at : Nat
  updated_at : Nat
  priority : Int
  run_at : Option Nat
  timeout : Option Nat
  output : Option String
  error : Option String
  next_retry_at : Option Nat
deriving DecidableEq, Repr

/-- Python truthiness of an optional string: `None` and `""` are falsy. -/
def truthyStr : Option String → Bool
  | none => false
  | some s => !s.isEmpty

/-- Python `a or b` for an optional-int left operand (`0` is falsy). -/
def pyOrNat : Option Nat → Option Nat → Option Nat
  | some t, d => if t = 0 then d else some t
  | none, d => d

/-- Python `a or b` for an optional-string left operand with a string default
(`error or "Max retries exceeded"` in `process_job`). -/
def pyOrStr (a : Option String) (b : String) : String :=
  match a with
  | some s => if s.isEmpty then b else s
  | none => b

/-- `Job.update_state` in `models.py`: sets the state, bumps `updated_at`,
and overwrites `error` only when the argument is truthy. -/
def Job.update_state (j : Job) (new_state : JobState) (error : Option String)
    (now : Nat) : Job :=
  { j with
    state := new_state
    updated_at := now
    error := if truthyStr error then error else j.error }

/-- `Job.increment_attempts` in `models.py`. -/
def Job.increment_attempts (j : Job) (now : Nat) : Job :=
  { j with attempts := j.attempts + 1, updated_at := now }

/-- `Job.should_retry` in `models.py`: note it tests the CURRENT state
against `failed`. -/
def Job.should_retry (j : Job) : Bool :=
  decide (j.state = JobState.failed) && decide (j.attempts < j.max_retries)

/-- `Job.should_move_to_dlq` in `models.py`: likewise tests the CURRENT
state against `failed`. -/
def Job.should_move_to_dlq (j : Job) : Bool :=
  decide (j.state = JobState.failed) && decide (j.max_retries ≤ j.attempts)

/-- The job built by the CLI `enqueue` command (`cli.py`): fresh jobs start
`pending` with `attempts = 0` and no output, error or retry time. -/
def mkJob (id command : String) (max_retries : Nat) (priority : Int)
    (run_at timeout : Option Nat) (now : Nat) : Job :=
  { id := id
    command := command
    state := JobState.pending
    attempts := 0
    max_retries := max_retries
    created_at := now
    updated_at := now
    priority := priority
    run_at := run_at
    timeout := timeout
    output := none
    error := none
    next_retry_at := none }

/-! ## Storage (`storage.py`): the `jobs` table as a `List Job` -/

/-- `Storage.get_job`: `SELECT * FROM jobs WHERE id = ?` (primary key). -/
def get_job (σ : List Job) (id : String) : Option Job :=
  σ.find? (fun j => j.id == id)

/-- The effect of `Storage.update_job`'s `UPDATE` on one matching row: every
column except `id` and `created_at` is overwritten from the argument. -/
def applyUpdate (r job : Job) : Job :=
  { job with id := r.id, created_at := r.created_at }

/-- The per-row function of `Storage.update_job`. -/
def updRow (job : Job) (r : Job) : Job :=
  if r.id == job.id then applyUpdate r job else r

/-- `Storage.update_job`: unconditional full-record update by id; the `Bool`
is `rowcount > 0`. -/
def update_job (σ : List Job) (job : Job) : List Job × Bool :=
  (σ.map (updRow job), σ.any (fun r => r.id == job.id))

/-- `Storage.add_job`: `INSERT`, failing on a duplicate primary key. -/
def add_job (σ : List Job) (job : Job) : List Job × Bool :=
  if σ.any (fun r => r.id == job.id) then (σ, false) else (σ ++ [job], true)

/-- The row condition of `Worker._acquire_job_lock`:
`WHERE id = ? AND state = 'pending'`. -/
def claimCond (id : String) (r : Job) : Bool :=
  r.id == id && decide (r.state = JobState.pending)

/-- `Worker._acquire_job_lock`: `UPDATE jobs SET state = 'processing'
WHERE id = ? AND state = 'pending'`; the `Bool` is `rowcount > 0`. -/
def acquire_job_lock (σ : List Job) (id : String) : List Job × Bool :=
  (σ.map (fun r => if claimCond id r then { r with state := JobState.processing } else r),
   σ.any (claimCond id))

/-- The row condition of `Storage.reset_retryable_job_to_pending`:
`WHERE id = ? AND state = 'failed' AND next_retry_at IS NOT NULL
AND next_retry_at <= now`. -/
def retryRowCond (id : String) (now : Nat) (r : Job) : Bool :=
  r.id == id && decide (r.state = JobState.failed) &&
    (match r.next_retry_at with
     | some t => decide (t ≤ now)
     | none => false)

/-- The `SET` clause of `Storage.reset_retryable_job_to_pending`:
`state = pending, next_retry_at = NULL, updated_at = now`. -/
def resetRow (now : Nat) (r : Job) : Job :=
  { r with state := JobState.pending, next_retry_at := none, updated_at := now }

/-- `Storage.reset_retryable_job_to_pending`: conditional `UPDATE` to
`pending`, clearing `next_retry_at` and bumping `updated_at`; the `Bool`
is `rowcount > 0`. -/
def reset_retryable_job_to_pending (σ : List Job) (id : String) (now : Nat) :
    List Job × Bool :=
  (σ.map (fun r => if retryRowCond id now r then resetRow now r else r),
   σ.any (retryRowCond id now))

/-- Eligibility filter of `Storage.get_next_pending_job`:
`state = 'pending' AND (run_at IS NULL OR run_at <= now)`. -/
def isEligiblePending (now : Nat) (j : Job) : Bool :=
  decide (j.state = JobState.pending) &&
    (match j.run_at with
     | none => true
     | some r => decide (r ≤ now))

/-- The `ORDER BY priority DESC, created_at ASC` order of
`Storage.get_next_pending_job`. -/
def pendingOrder (a b : Job) : Prop :=
  b.priority < a.priority ∨ (a.priority = b.priority ∧ a.created_at ≤ b.created_at)

instance : DecidableRel pendingOrder := fun a b => by
  unfold pendingOrder; infer_instance

instance : IsTotal Job pendingOrder where
  total a b := by
    unfold pendingOrder
    rcases lt_trichotomy a.priority b.priority with h | h | h
    · exact Or.inr (Or.inl h)
    · rcases Nat.le_total a.created_at b.created_at with hc | hc
      · exact Or.inl (Or.inr ⟨h, hc⟩)
      · exact Or.inr (Or.inr ⟨h.symm, hc⟩)
    · exact Or.inl (Or.inl h)

instance : IsTrans Job pendingOrder where
  trans a b c hab hbc := by
    unfold pendingOrder at hab hbc ⊢
    rcases hab with h | ⟨h, hc⟩ <;> rcases hbc with g | ⟨g, gc⟩
    · exact Or.inl (g.trans h)
    · exact Or.inl (g ▸ h)
    · exact Or.inl (h ▸ g)
    · exact Or.inr ⟨h.trans g, hc.trans gc⟩

/-- `Storage.get_next_pending_job`: among eligible pending rows, the first
row in `priority DESC, created_at ASC` order (`LIMIT 1`). -/
def get_next_pending_job (σ : List Job) (now : Nat) : Option Job :=
  (List.insertionSort pendingOrder (σ.filter (isEligiblePending now))).head?

/-- Row filter of `Storage.get_retryable_jobs`:
`state = 'failed' AND next_retry_at IS NOT NULL AND next_retry_at <= now`. -/
def isRetryable (now : Nat) (j : Job) : Bool :=
  decide (j.state = JobState.failed) &&
    (match j.next_retry_at with
     | some t => decide (t ≤ now)
     | none => false)

/-- The `ORDER BY next_retry_at ASC` order of `Storage.get_retryable_jobs`
(all selected rows have `next_retry_at` set). -/
def retryOrder (a b : Job) : Prop :=
  a.next_retry_at.getD 0 ≤ b.next_retry_at.getD 0

instance : DecidableRel retryOrder := fun a b => by
  unfold retryOrder; infer_instance

/-- `Storage.get_retryable_jobs`. -/
def get_retryable_jobs (σ : List Job) (now : Nat) : List Job :=
  List.insertionSort retryOrder (σ.filter (isRetryable now))

/-- The `ORDER BY created_at DESC` order of `Storage.list_jobs`. -/
def createdDesc (a b : Job) : Prop :=
  b.created_at ≤ a.created_at

instance : DecidableRel createdDesc := fun a b => by
  unfold createdDesc; infer_instance

instance : IsTotal Job createdDesc where
  total a b := (Nat.le_total b.created_at a.created_at).imp id id

instance : IsTrans Job createdDesc where
  trans _ _ _ hab hbc := Nat.le_trans hbc hab

/-- `Storage.list_jobs`: optional state filter, newest first, `LIMIT`. -/
def list_jobs (σ : List Job) (state : Option JobState) (limit : Nat) : List Job :=
  (List.insertionSort createdDesc
    (match state with
     | some s => σ.filter (fun j => decide (j.state = s))
     | none => σ)).take limit

/-- `Storage.get_dlq_jobs`: `list_jobs(state=dead)` with the default
`limit = 100`. -/
def get_dlq_jobs (σ : List Job) : List Job :=
  list_jobs σ (some JobState.dead) 100

/-- `Storage.reset_job_from_dlq`. -/
def reset_job_from_dlq (σ : List Job) (id : String) (now : Nat) :
    List Job × Option Job :=
  match get_job σ id with
  | some j =>
    if j.state = JobState.dead then
      let j2 : Job :=
        { j with
          state := JobState.pending
          attempts := 0
          error := none
          next_retry_at := none
          updated_at := now }
      ((update_job σ j2).1, some j2)
    else (σ, none)
  | none => (σ, none)

/-! ## Executor (`JobExecutor.execute` in `scheduler.py`) -/

/-- Abstract behaviour of the spawned child process: how long it would run,
what it produces on a normal finish, and what output it has already produced
if it is killed before finishing. -/
structure ProcBehavior where
  duration : Nat
  stdout : String
  stderr : String
  returncode : Int
  earlyOutput : String
deriving DecidableEq, Repr

/-- The non-timeout tail of `JobExecutor.execute`: concatenated output,
success from the exit code, and the error-message selection. -/
def finishResult (p : ProcBehavior) : Bool × String × Option String :=
  let output := p.stdout ++ p.stderr
  let success := decide (p.returncode = 0)
  let error :=
    if !success && p.stderr.isEmpty then
      some ("Command failed with exit code " ++ toString p.returncode)
    else if p.stderr.isEmpty then none else some p.stderr
  (success, output, error)

/-- `JobExecutor.execute`: effective timeout is `job.timeout or self.timeout`
(Python `or`, so `0` falls through to the default); on timeout the process is
killed and `(False, "", "Job timed out after <T> seconds")` is returned —
note the empty output string. -/
def execute (defaultTimeout : Option Nat) (job : Job) (p : ProcBehavior) :
    Bool × String × Option String :=
  match pyOrNat job.timeout defaultTimeout with
  | some t =>
    if t < p.duration then
      (false, "", some ("Job timed out after " ++ toString t ++ " seconds"))
    else finishResult p
  | none => finishResult p

/-! ## Scheduler (`scheduler.py`) -/

/-- `Scheduler.calculate_retry_delay`: `int(base ** attempts)` with the
configured integer base (default 2). -/
def calculate_retry_delay (base attempts : Nat) : Nat :=
  base ^ attempts

/-- `Scheduler.schedule_retry`: set `next_retry_at = now + delay`, set state
`failed` (without touching `error`), and write the record. -/
def schedule_retry (σ : List Job) (job : Job) (base now : Nat) : List Job :=
  let delay := calculate_retry_delay base job.attempts
  let j1 : Job := { job with next_retry_at := some (now + delay) }
  let j2 := j1.update_state JobState.failed none now
  (update_job σ j2).1

/-- `Scheduler.move_to_dlq`: set state `dead` with the error message, clear
`next_retry_at`, and write the record. -/
def move_to_dlq (σ : List Job) (job : Job) (error : String) (now : Nat) :
    List Job :=
  let j1 := job.update_state JobState.dead (some error) now
  let j2 : Job := { j1 with next_retry_at := none }
  (update_job σ j2).1

/-- `Scheduler.process_job`, with the executor's result `(success, output,
error)` passed in as parameters: reload the record, force it to `processing`
if it is not, store the output, then finalize on the success flag.  Mirrors
the source exactly, including the `should_retry` / `should_move_to_dlq`
branches. -/
def process_job (σ : List Job) (id : String) (success : Bool) (output : String)
    (error : Option String) (base now : Nat) : List Job × Bool :=
  match get_job σ id with
  | none => (σ, false)
  | some job0 =>
    let step1 : List Job × Job :=
      if job0.state = JobState.processing then (σ, job0)
      else
        let j := job0.update_state JobState.processing none now
        ((update_job σ j).1, j)
    let σ1 := step1.1
    let job1 : Job := { step1.2 with output := some output }
    if success then
      let j := job1.update_state JobState.completed none now
      ((update_job σ1 j).1, true)
    else
      let j := job1.increment_attempts now
      if j.should_retry then
        (schedule_retry σ1 j base now, false)
      else if j.should_move_to_dlq then
        (move_to_dlq σ1 j (pyOrStr error "Max retries exceeded") now, false)
      else
        let j2 := j.update_state JobState.failed error now
        ((update_job σ1 j2).1, false)

/-! ## Invariants, predicates and concrete scenarios -/

/-- Spec invariant 3: `next_retry_at ≠ nil ⇒ state = failed`, over a store. -/
def nraInv (σ : List Job) : Prop :=
  ∀ j ∈ σ, j.next_retry_at ≠ none → j.state = JobState.failed

/-- Propositional form of `isEligiblePending`: a pending row whose `run_at`
is unset or has passed. -/
def EligiblePending (now : Nat) (j : Job) : Prop :=
  j.state = JobState.pending ∧
    (j.run_at = none ∨ ∃ r, j.run_at = some r ∧ r ≤ now)

/-- A job already claimed (state `processing`) with `max_retries = 2`,
about to fail its first execution. -/
def c1Store : List Job :=
  [ { mkJob "b" "exit 1" 2 0 none none 0 with state := JobState.processing } ]

/-- A job already claimed with `max_retries = 0`: per the spec its first
failure must move it straight to `dead`. -/
def c1StoreB : List Job :=
  [ { mkJob "c" "exit 1" 0 0 none none 0 with state := JobState.processing } ]

/-- Scenario S2 of the spec: enqueue `exit 1` with `max_retries = 2`. -/
def c2Job : Job := mkJob "b" "exit 1" 2 0 none none 0

/-- The store after enqueuing `c2Job`. -/
def c2Store0 : List Job := (add_job [] c2Job).1

/-- The store after the worker claims the job. -/
def c2Store1 : List Job := (acquire_job_lock c2Store0 "b").1

/-- The store after the first (failing) execution is finalized at time 3. -/
def c2Store2 : List Job := (process_job c2Store1 "b" false "" (some "exit 1") 2 3).1

/-- Scenario S6 of the spec: a job with a 1-second timeout. -/
def c7job : Job := mkJob "t" "sleep 30" 0 0 none (some 1) 0

/-- The same job but with `timeout = 0`, which Python `or` treats as unset. -/
def c7jobZero : Job := mkJob "t0" "sleep 30" 0 0 none (some 0) 0

/-- A child process that would run 10 seconds, exits 1 with no stderr, and
has produced the output `"hi"` by the time it is killed. -/
def c7proc : ProcBehavior :=
  { duration := 10, stdout := "", stderr := "", returncode := 1, earlyOutput := "hi" }

/-- A claimed (processing) job that carries an error string from an earlier
failed attempt. -/
def c9Job : Job :=
  { mkJob "a" "echo hi" 3 0 none none 0 with
    state := JobState.processing
    attempts := 1
    error := some "boom" }

/-- A one-row store holding `c9Job`. -/
def c9Store : List Job := [c9Job]

/-- A one-row store holding a failed job whose retry time (5) is due. -/
def c5Store : List Job :=
  [ { mkJob "r" "exit 1" 3 0 none none 0 with
      state := JobState.failed
      attempts := 1
      error := some "boom"
      next_retry_at := some 5 } ]

/-- Scenario S3/S4 of the spec: a low-priority old job, a high-priority newer
job, and a job scheduled for the future (`run_at = 100`). -/
def c6Store : List Job :=
  [ mkJob "low" "echo l" 3 0 none none 0,
    mkJob "hi" "echo h" 3 5 none none 1,
    mkJob "later" "echo x" 3 9 (some 100) none 2 ]

/-- A one-pending-job store satisfying the `next_retry_at` invariant. -/
def c8Store : List Job := [mkJob "w" "echo w" 3 0 none none 0]

/-- A store with two dead jobs (created at 1 and 2) and one pending job. -/
def c10Store : List Job :=
  [ { mkJob "d1" "exit 1" 0 0 none none 1 with state := JobState.dead, attempts := 1 },
    { mkJob "d2" "exit 1" 0 0 none none 2 with state := JobState.dead, attempts := 1 },
    mkJob "p" "echo p" 3 0 none none 3 ]

/-! ## Helper lemmas -/

/-- Looking a job up after an id-preserving row map. -/
lemma get_job_map (f : Job → Job) (hf : ∀ r, (f r).id = r.id) (σ : List Job)
    (id : String) : get_job (σ.map f) id = (get_job σ id).map f := by
  induction σ with
  | nil => rfl
  | cons r rest ih =>
    by_cases h : r.id = id
    · simp [get_job, List.find?_cons, hf, h]
    · simp only [get_job, List.map_cons, List.find?_cons] at ih ⊢
      rw [show (((f r).id == id)) = false by simp [hf r, h],
          show ((r.id == id)) = false by simp [h]]
      exact ih

lemma updRow_id (job r : Job) : (updRow job r).id = r.id := by
  unfold updRow applyUpdate
  split <;> rfl

lemma get_job_update_job (σ : List Job) (job : Job) (id : String) :
    get_job (update_job σ job).1 id = (get_job σ id).map (updRow job) :=
  get_job_map (updRow job) (updRow_id job) σ id

/-! ## Claim theorems -/

/-- Claim C1.  The claim is FALSE of the code: `should_retry` and
`should_move_to_dlq` both require `state = failed`, but `process_job` calls
them while the job is still `processing`, so every failed execution takes the
fallback branch.  Concretely: with `max_retries = 2` the first failure leaves
`state = failed` with `next_retry_at = none` (the spec demands
`now + backoff`), and with `max_retries = 0` the first failure still leaves
`state = failed` (the spec demands `dead`). -/
theorem process_job_failure_always_falls_back :
    (get_job (process_job c1Store "b" false "" (some "boom") 2 5).1 "b").map
        (fun j => (j.state, j.attempts, j.next_retry_at, j.error)) =
      some (JobState.failed, 1, none, some "boom")
    ∧ (get_job (process_job c1StoreB "c" false "" (some "boom") 2 5).1 "c").map
        (fun j => (j.state, j.attempts, j.next_retry_at)) =
      some (JobState.failed, 1, none) :=
  ⟨rfl, rfl⟩

/-- Claim C2.  The claim is FALSE of the code: an always-failing job with
`max_retries = 2` is executed once, ends in `failed` with `attempts = 1` and
`next_retry_at = none`, and from then on is invisible to both
`get_retryable_jobs` and `get_next_pending_job` at every later time — it is
never executed again and never reaches `dead`. -/
theorem always_failing_job_gets_stuck_after_one_execution :
    get_next_pending_job c2Store0 0 = some c2Job
    ∧ (acquire_job_lock c2Store0 "b").2 = true
    ∧ (get_job c2Store2 "b").map (fun j => (j.state, j.attempts, j.next_retry_at)) =
        some (JobState.failed, 1, none)
    ∧ (∀ t, get_retryable_jobs c2Store2 t = [])
    ∧ (∀ t, get_next_pending_job c2Store2 t = none) :=
  ⟨rfl, rfl, rfl, fun _ => rfl, fun _ => rfl⟩

/-- Claim C4, counterexample.  The code applies NO cap: at `attempts = 17`
with the default base 2 the delay already exceeds the one-day sentinel the
spec offers; and for a configured base of 0 the delay can be 0, below the
claimed 1-second minimum. -/
theorem calculate_retry_delay_uncapped_cex :
    86400 < calculate_retry_delay 2 17 ∧ calculate_retry_delay 0 1 = 0 := by
  constructor
  · decide
  · rfl

/-- Claim C4, amended.  `calculate_retry_delay` is exactly `base ^ attempts`
(no minimum clamp, no cap): for a base ≥ 1 (the default is 2) it is at least
1 second and non-decreasing in `attempts`, and with base 2 it grows without
bound instead of being capped. -/
theorem calculate_retry_delay_spec :
    (∀ base attempts, calculate_retry_delay base attempts = base ^ attempts)
    ∧ (∀ base attempts, 1 ≤ base → 1 ≤ calculate_retry_delay base attempts)
    ∧ (∀ base a b, 1 ≤ base → a ≤ b →
        calculate_retry_delay base a ≤ calculate_retry_delay base b)
    ∧ (∀ C, ∃ a, C < calculate_retry_delay 2 a) := by
  refine ⟨fun _ _ => rfl, fun base attempts h => ?_, fun base a b h hab => ?_, fun C => ?_⟩
  · exact Nat.one_le_pow _ _ h
  · exact Nat.pow_le_pow_right h hab
  · exact ⟨C, Nat.lt_two_pow C⟩

/-- Claim C4, witness for the amended theorem at base 2, attempts 3 resp.
exponents 3 ≤ 5. -/
theorem calculate_retry_delay_spec_witness :
    calculate_retry_delay 2 3 = 2 ^ 3
    ∧ (1 ≤ 2 ∧ 1 ≤ calculate_retry_delay 2 3)
    ∧ (1 ≤ 2 ∧ 3 ≤ 5 ∧ calculate_retry_delay 2 3 ≤ calculate_retry_delay 2 5)
    ∧ (∃ a, 1000 < calculate_retry_delay 2 a) :=
  ⟨calculate_retry_delay_spec.1 2 3,
   ⟨by decide, calculate_retry_delay_spec.2.1 2 3 (by decide)⟩,
   ⟨by decide, by decide, calculate_retry_delay_spec.2.2.1 2 3 5 (by decide) (by decide)⟩,
   calculate_retry_delay_spec.2.2.2 1000⟩

/-- Claim C7, counterexample.  On timeout the executor returns the EMPTY
string as output, not the output collected so far (`c7proc.earlyOutput`
is `"hi"`); and a job whose `timeout` is set to 0 is run with the default
timeout (Python `or` truthiness), so with a 300-second default it does not
time out at all. -/
theorem execute_timeout_cex :
    execute (some 300) c7job c7proc =
      (false, "", some "Job timed out after 1 seconds")
    ∧ (execute (some 300) c7job c7proc).2.1 ≠ c7proc.earlyOutput
    ∧ execute (some 300) c7jobZero c7proc =
      (false, "", some "Command failed with exit code 1") := by
  refine ⟨rfl, ?_, rfl⟩
  decide

/-- Claim C7, amended.  Whenever the effective timeout — `job.timeout or
default_timeout` under Python truthiness, so a 0 is treated as unset — is `t`
seconds and the command would run longer than `t`, `execute` returns exactly
`(false, "", "Job timed out after <t> seconds")`: the error message is as
claimed but the output component is always the empty string. -/
theorem execute_timeout_spec (dt : Option Nat) (job : Job) (p : ProcBehavior)
    (t : Nat) (ht : pyOrNat job.timeout dt = some t) (hd : t < p.duration) :
    execute dt job p =
      (false, "", some ("Job timed out after " ++ toString t ++ " seconds")) := by
  unfold execute
  rw [ht]
  simp only [if_pos hd]

/-- Claim C7, witness: the amended theorem applied to the concrete
1-second-timeout job and 10-second process. -/
theorem execute_timeout_spec_witness :
    pyOrNat c7job.timeout (some 300) = some 1
    ∧ 1 < c7proc.duration
    ∧ execute (some 300) c7job c7proc =
      (false, "", some ("Job timed out after " ++ toString 1 ++ " seconds")) :=
  ⟨rfl, by decide, execute_timeout_spec (some 300) c7job c7proc 1 rfl (by decide)⟩

/-- Claim C9.  `Job.update_state` only overwrites `error` when the argument
is truthy, so the success path of `process_job` (which passes no error)
finalizes the job as `completed` while keeping whatever error string an
earlier failed attempt stored. -/
theorem completed_job_keeps_stale_error :
    (∀ (j : Job) (s : JobState) (now : Nat),
        (j.update_state s none now).error = j.error)
    ∧ (∀ (σ : List Job) (id : String) (j : Job) (out : String)
        (err : Option String) (base now : Nat),
        get_job σ id = some j → j.state = JobState.processing →
        (get_job (process_job σ id true out err base now).1 id).map
            (fun r => (r.state, r.error)) = some (JobState.completed, j.error)) := by
  constructor
  · intro j s now
    rfl
  · intro σ id j out err base now hj hst
    unfold process_job
    rw [hj]
    simp only [if_pos hst, if_true]
    rw [get_job_update_job, hj]
    simp [updRow, applyUpdate, Job.update_state, truthyStr]

/-- Claim C9, witness: a processing job carrying `error = "boom"` from an
earlier attempt is finalized `completed` with the stale error kept. -/
theorem completed_job_keeps_stale_error_witness :
    get_job c9Store "a" = some c9Job
    ∧ c9Job.state = JobState.processing
    ∧ (get_job (process_job c9Store "a" true "out" none 2 9).1 "a").map
        (fun r => (r.state, r.error)) = some (JobState.completed, c9Job.error) :=
  ⟨rfl, rfl,
   completed_job_keeps_stale_error.2 c9Store "a" c9Job "out" none 2 9 rfl rfl⟩

lemma claimCond_iff (id : String) (r : Job) :
    claimCond id r = true ↔ r.id = id ∧ r.state = JobState.pending := by
  unfold claimCond
  simp

lemma claimCond_after_update (id : String) (r : Job) :
    claimCond id
      (if claimCond id r then { r with state := JobState.processing } else r) =
      false := by
  by_cases h : claimCond id r = true
  · rw [if_pos h]
    unfold claimCond
    rw [show decide (JobState.processing = JobState.pending) = false from rfl,
        Bool.and_false]
  · rw [if_neg h]
    exact Bool.eq_false_iff.mpr h

lemma acquire_again_false (σ : List Job) (id : String) :
    (acquire_job_lock (acquire_job_lock σ id).1 id).2 = false := by
  unfold acquire_job_lock
  simp only [List.any_map]
  rw [List.any_eq_false]
  intro r _
  simp [Function.comp, claimCond_after_update]

lemma acquire_noop (σ : List Job) (id : String)
    (h : (acquire_job_lock σ id).2 = false) : (acquire_job_lock σ id).1 = σ := by
  unfold acquire_job_lock at h ⊢
  rw [List.any_eq_false] at h
  have : σ.map (fun r =>
      if claimCond id r then { r with state := JobState.processing } else r) =
      σ.map (fun r => r) := by
    apply List.map_congr_left
    intro a ha
    rw [if_neg (by simpa using h a ha)]
  simpa using this

/-- Claim C3.  The worker's claim (`UPDATE ... SET state = processing WHERE
id = ? AND state = pending`) succeeds iff a pending record with that id is
stored; when it fails the store is unchanged; and immediately after any claim
call, a second claim of the same id always fails and leaves the store
unchanged, so a claimed job cannot be claimed again until it is released. -/
theorem acquire_job_lock_spec (σ : List Job) (id : String) :
    ((acquire_job_lock σ id).2 = true ↔
      ∃ j ∈ σ, j.id = id ∧ j.state = JobState.pending)
    ∧ ((acquire_job_lock σ id).2 = false → (acquire_job_lock σ id).1 = σ)
    ∧ (acquire_job_lock (acquire_job_lock σ id).1 id).2 = false
    ∧ (acquire_job_lock (acquire_job_lock σ id).1 id).1 =
        (acquire_job_lock σ id).1 := by
  refine ⟨?_, acquire_noop σ id, acquire_again_false σ id,
    acquire_noop _ id (acquire_again_false σ id)⟩
  show (σ.any (claimCond id)) = true ↔ _
  rw [List.any_eq_true]
  constructor
  · rintro ⟨j, hj, hc⟩
    exact ⟨j, hj, (claimCond_iff id j).mp hc⟩
  · rintro ⟨j, hj, hc⟩
    exact ⟨j, hj, (claimCond_iff id j).mpr hc⟩

/-- Claim C3, witness: on a one-job pending store the claim succeeds, and the
follow-up facts are instantiated there. -/
theorem acquire_job_lock_spec_witness :
    ((acquire_job_lock c2Store0 "b").2 = true ↔
      ∃ j ∈ c2Store0, j.id = "b" ∧ j.state = JobState.pending)
    ∧ ((acquire_job_lock c2Store0 "b").2 = false →
        (acquire_job_lock c2Store0 "b").1 = c2Store0)
    ∧ (acquire_job_lock (acquire_job_lock c2Store0 "b").1 "b").2 = false
    ∧ (acquire_job_lock (acquire_job_lock c2Store0 "b").1 "b").1 =
        (acquire_job_lock c2Store0 "b").1 :=
  acquire_job_lock_spec c2Store0 "b"

lemma retryRowCond_iff (id : String) (now : Nat) (r : Job) :
    retryRowCond id now r = true ↔
      r.id = id ∧ r.state = JobState.failed ∧
        ∃ t, r.next_retry_at = some t ∧ t ≤ now := by
  unfold retryRowCond
  cases h : r.next_retry_at with
  | none => simp [h]
  | some t0 => simp [h, and_assoc]

lemma reset_retryable_noop (σ : List Job) (id : String) (now : Nat)
    (h : (reset_retryable_job_to_pending σ id now).2 = false) :
    (reset_retryable_job_to_pending σ id now).1 = σ := by
  unfold reset_retryable_job_to_pending at h ⊢
  rw [List.any_eq_false] at h
  have : σ.map (fun r => if retryRowCond id now r then resetRow now r else r) =
      σ.map (fun r => r) := by
    apply List.map_congr_left
    intro a ha
    rw [if_neg (by simpa using h a ha)]
  simpa using this

/-- Claim C5.  `reset_retryable_job_to_pending` succeeds iff a record with
the given id is stored in state `failed` with a non-null `next_retry_at` that
is due; every matching row is rewritten to `pending` with `next_retry_at`
cleared, every non-matching row is kept as is, and a `false` result means the
store is unchanged. -/
theorem reset_retryable_job_to_pending_spec (σ : List Job) (id : String)
    (now : Nat) :
    ((reset_retryable_job_to_pending σ id now).2 = true ↔
      ∃ j ∈ σ, j.id = id ∧ j.state = JobState.failed ∧
        ∃ t, j.next_retry_at = some t ∧ t ≤ now)
    ∧ ((reset_retryable_job_to_pending σ id now).2 = false →
        (reset_retryable_job_to_pending σ id now).1 = σ)
    ∧ (∀ j ∈ σ, retryRowCond id now j = true →
        resetRow now j ∈ (reset_retryable_job_to_pending σ id now).1)
    ∧ (∀ j ∈ σ, retryRowCond id now j = false →
        j ∈ (reset_retryable_job_to_pending σ id now).1) := by
  refine ⟨?_, reset_retryable_noop σ id now, ?_, ?_⟩
  · show (σ.any (retryRowCond id now)) = true ↔ _
    rw [List.any_eq_true]
    constructor
    · rintro ⟨j, hj, hc⟩
      exact ⟨j, hj, (retryRowCond_iff id now j).mp hc⟩
    · rintro ⟨j, hj, hc⟩
      exact ⟨j, hj, (retryRowCond_iff id now j).mpr hc⟩
  · intro j hj hc
    show resetRow now j ∈
      σ.map (fun r => if retryRowCond id now r then resetRow now r else r)
    have h2 : (fun r => if retryRowCond id now r then resetRow now r else r) j =
        resetRow now j := by simp [hc]
    exact h2 ▸ List.mem_map_of_mem _ hj
  · intro j hj hc
    show j ∈
      σ.map (fun r => if retryRowCond id now r then resetRow now r else r)
    have h2 : (fun r => if retryRowCond id now r then resetRow now r else r) j =
        j := by simp [hc]
    exact h2 ▸ List.mem_map_of_mem _ hj

/-- Claim C5, witness: a due failed job is released back to pending. -/
theorem reset_retryable_job_to_pending_spec_witness :
    ((reset_retryable_job_to_pending c5Store "r" 10).2 = true ↔
      ∃ j ∈ c5Store, j.id = "r" ∧ j.state = JobState.failed ∧
        ∃ t, j.next_retry_at = some t ∧ t ≤ 10)
    ∧ ((reset_retryable_job_to_pending c5Store "r" 10).2 = false →
        (reset_retryable_job_to_pending c5Store "r" 10).1 = c5Store)
    ∧ (∀ j ∈ c5Store, retryRowCond "r" 10 j = true →
        resetRow 10 j ∈ (reset_retryable_job_to_pending c5Store "r" 10).1)
    ∧ (∀ j ∈ c5Store, retryRowCond "r" 10 j = false →
        j ∈ (reset_retryable_job_to_pending c5Store "r" 10).1) :=
  reset_retryable_job_to_pending_spec c5Store "r" 10

lemma isEligiblePending_iff (now : Nat) (j : Job) :
    isEligiblePending now j = true ↔ EligiblePending now j := by
  unfold isEligiblePending EligiblePending
  cases h : j.run_at with
  | none => simp [h]
  | some r => simp [h]

/-- Claim C6.  `get_next_pending_job` returns `none` exactly when no pending
job with `run_at` unset or due exists; any returned job is a stored, eligible
pending job whose priority is maximal among eligible jobs and whose
`created_at` is minimal among eligible jobs of equal priority; and a job
whose `run_at` lies in the future is never selected. -/
theorem get_next_pending_job_spec (σ : List Job) (now : Nat) :
    (get_next_pending_job σ now = none ↔ ∀ j ∈ σ, ¬ EligiblePending now j)
    ∧ (∀ j, get_next_pending_job σ now = some j →
        j ∈ σ ∧ EligiblePending now j ∧
          ∀ k ∈ σ, EligiblePending now k →
            k.priority ≤ j.priority ∧
              (k.priority = j.priority → j.created_at ≤ k.created_at))
    ∧ (∀ j r, j.run_at = some r → now < r →
        get_next_pending_job σ now ≠ some j) := by
  have hperm := List.perm_insertionSort pendingOrder (σ.filter (isEligiblePending now))
  have hsome : ∀ j, get_next_pending_job σ now = some j →
      j ∈ σ ∧ EligiblePending now j ∧
        ∀ k ∈ σ, EligiblePending now k →
          k.priority ≤ j.priority ∧
            (k.priority = j.priority → j.created_at ≤ k.created_at) := by
    intro j hj
    have hs := List.sorted_insertionSort pendingOrder (σ.filter (isEligiblePending now))
    unfold get_next_pending_job at hj
    cases hsl : List.insertionSort pendingOrder (σ.filter (isEligiblePending now)) with
    | nil => rw [hsl] at hj; simp at hj
    | cons a t =>
      rw [hsl] at hj hs hperm
      have haj : a = j := by simpa using hj
      subst haj
      have hmem : a ∈ σ.filter (isEligiblePending now) :=
        hperm.mem_iff.mp (List.mem_cons_self a t)
      have hmf := List.mem_filter.mp hmem
      refine ⟨hmf.1, (isEligiblePending_iff now a).mp hmf.2, ?_⟩
      intro k hk hek
      have hkf : k ∈ σ.filter (isEligiblePending now) :=
        List.mem_filter.mpr ⟨hk, (isEligiblePending_iff now k).mpr hek⟩
      have hkc : k = a ∨ k ∈ t := by
        simpa using hperm.mem_iff.mpr hkf
      rcases hkc with rfl | hkt
      · exact ⟨le_refl _, fun _ => le_refl _⟩
      · have hrel : pendingOrder a k := List.rel_of_sorted_cons hs k hkt
        unfold pendingOrder at hrel
        rcases hrel with h | ⟨h1, h2⟩
        · refine ⟨le_of_lt h, fun he => ?_⟩
          omega
        · exact ⟨le_of_eq h1.symm, fun _ => h2⟩
  refine ⟨?_, hsome, ?_⟩
  · unfold get_next_pending_job
    rw [List.head?_eq_none_iff]
    constructor
    · intro hnil j hj hel
      have : σ.filter (isEligiblePending now) = [] := by
        have := hperm.length_eq
        rw [hnil] at this
        exact List.length_eq_zero.mp this.symm
      rw [List.filter_eq_nil_iff] at this
      exact this j hj ((isEligiblePending_iff now j).mpr hel)
    · intro hall
      have : σ.filter (isEligiblePending now) = [] := by
        rw [List.filter_eq_nil_iff]
        intro j hj hel
        exact hall j hj ((isEligiblePending_iff now j).mp hel)
      rw [this]
      rfl
  · intro j r hr hnow hsel
    have := (hsome j hsel).2.1
    unfold EligiblePending at this
    rcases this.2 with h | ⟨t, ht, htle⟩
    · rw [hr] at h; exact Option.noConfusion h
    · rw [hr] at ht
      have : r = t := Option.some.inj ht
      omega

/-- Claim C6, witness: with a low-priority old job, a high-priority newer job
and a not-yet-due job in the store, the theorem is instantiated at time 10. -/
theorem get_next_pending_job_spec_witness :
    (get_next_pending_job c6Store 10 = none ↔
      ∀ j ∈ c6Store, ¬ EligiblePending 10 j)
    ∧ (∀ j, get_next_pending_job c6Store 10 = some j →
        j ∈ c6Store ∧ EligiblePending 10 j ∧
          ∀ k ∈ c6Store, EligiblePending 10 k →
            k.priority ≤ j.priority ∧
              (k.priority = j.priority → j.created_at ≤ k.created_at))
    ∧ (∀ j r, j.run_at = some r → 10 < r →
        get_next_pending_job c6Store 10 ≠ some j) :=
  get_next_pending_job_spec c6Store 10

lemma nraInv_update_job (σ : List Job) (job : Job)
    (hrow : job.next_retry_at ≠ none → job.state = JobState.failed)
    (h : nraInv σ) : nraInv (update_job σ job).1 := by
  intro r hr hne
  have hr2 : r ∈ σ.map (updRow job) := hr
  rcases List.mem_map.mp hr2 with ⟨r0, hr0, rfl⟩
  unfold updRow applyUpdate at hne ⊢
  by_cases hid : (r0.id == job.id) = true
  · rw [if_pos hid] at hne ⊢
    exact hrow hne
  · rw [if_neg hid] at hne ⊢
    exact h r0 hr0 hne

lemma nraInv_add_job (σ : List Job) (job : Job)
    (hrow : job.next_retry_at = none) (h : nraInv σ) :
    nraInv (add_job σ job).1 := by
  intro r hr hne
  unfold add_job at hr
  by_cases hd : σ.any (fun x => x.id == job.id) = true
  · rw [if_pos hd] at hr
    exact h r hr hne
  · rw [if_neg hd] at hr
    rcases List.mem_append.mp hr with hm | hm
    · exact h r hm hne
    · have : r = job := by simpa using hm
      subst this
      exact absurd hrow hne

lemma nraInv_acquire (σ : List Job) (id : String) (h : nraInv σ) :
    nraInv (acquire_job_lock σ id).1 := by
  intro r hr hne
  have hr2 : r ∈ σ.map (fun x =>
      if claimCond id x then { x with state := JobState.processing } else x) := hr
  rcases List.mem_map.mp hr2 with ⟨r0, hr0, rfl⟩
  by_cases hc : claimCond id r0 = true
  · rw [if_pos hc] at hne ⊢
    have hpend : r0.state = JobState.pending := ((claimCond_iff id r0).mp hc).2
    have hnone : r0.next_retry_at = none := by
      by_contra hnn
      have hf := h r0 hr0 hnn
      rw [hf] at hpend
      exact JobState.noConfusion hpend
    exact absurd hnone hne
  · rw [if_neg hc] at hne ⊢
    exact h r0 hr0 hne

lemma nraInv_reset_retryable (σ : List Job) (id : String) (now : Nat)
    (h : nraInv σ) : nraInv (reset_retryable_job_to_pending σ id now).1 := by
  intro r hr hne
  have hr2 : r ∈ σ.map (fun x =>
      if retryRowCond id now x then resetRow now x else x) := hr
  rcases List.mem_map.mp hr2 with ⟨r0, hr0, rfl⟩
  by_cases hc : retryRowCond id now r0 = true
  · rw [if_pos hc] at hne ⊢
    exact absurd rfl hne
  · rw [if_neg hc] at hne ⊢
    exact h r0 hr0 hne

lemma nraInv_schedule_retry (σ : List Job) (job : Job) (base now : Nat)
    (h : nraInv σ) : nraInv (schedule_retry σ job base now) :=
  nraInv_update_job σ _ (fun _ => rfl) h

lemma nraInv_move_to_dlq (σ : List Job) (job : Job) (err : String) (now : Nat)
    (h : nraInv σ) : nraInv (move_to_dlq σ job err now) :=
  nraInv_update_job σ _ (fun hne => absurd rfl hne) h

lemma nraInv_reset_from_dlq (σ : List Job) (id : String) (now : Nat)
    (h : nraInv σ) : nraInv (reset_job_from_dlq σ id now).1 := by
  unfold reset_job_from_dlq
  split
  · split
    · apply nraInv_update_job σ _ ?_ h
      intro hne
      exact absurd rfl hne
    · exact h
  · exact h

lemma nraInv_process_job (σ : List Job) (id : String) (s : Bool) (out : String)
    (err : Option String) (base now : Nat)
    (hpre : ∀ j, get_job σ id = some j → j.state = JobState.processing)
    (h : nraInv σ) : nraInv (process_job σ id s out err base now).1 := by
  unfold process_job
  cases hg : get_job σ id with
  | none => exact h
  | some j =>
    have hst := hpre j hg
    simp only [if_pos hst]
    split
    · apply nraInv_update_job σ _ ?_ h
      intro hne
      have hj : j ∈ σ := List.mem_of_find?_eq_some hg
      have hf := h j hj hne
      exact (JobState.noConfusion (hst.symm.trans hf) : _)
    · split
      · exact nraInv_schedule_retry σ _ base now h
      · split
        · exact nraInv_move_to_dlq σ _ _ now h
        · exact nraInv_update_job σ _ (fun _ => rfl) h

/-- Claim C8.  The invariant `next_retry_at ≠ null ⇒ state = failed` is
preserved by every store-writing engine operation: enqueue, the worker's
claim, `schedule_retry`, `move_to_dlq`, finalization by `process_job` (under
the engine's calling convention that the reloaded job is `processing`, as
established by the claim), retry release, and DLQ reset. -/
theorem nra_invariant_preserved (σ : List Job) (h : nraInv σ) :
    (∀ id cmd mr pri ra tmo now,
      nraInv (add_job σ (mkJob id cmd mr pri ra tmo now)).1)
    ∧ (∀ id, nraInv (acquire_job_lock σ id).1)
    ∧ (∀ job base now, nraInv (schedule_retry σ job base now))
    ∧ (∀ job err now, nraInv (move_to_dlq σ job err now))
    ∧ (∀ id s out err base now,
        (∀ j, get_job σ id = some j → j.state = JobState.processing) →
        nraInv (process_job σ id s out err base now).1)
    ∧ (∀ id now, nraInv (reset_retryable_job_to_pending σ id now).1)
    ∧ (∀ id now, nraInv (reset_job_from_dlq σ id now).1) :=
  ⟨fun _ _ _ _ _ _ _ => nraInv_add_job σ _ rfl h,
   fun id => nraInv_acquire σ id h,
   fun job base now => nraInv_schedule_retry σ job base now h,
   fun job err now => nraInv_move_to_dlq σ job err now h,
   fun id s out err base now hpre => nraInv_process_job σ id s out err base now hpre h,
   fun id now => nraInv_reset_retryable σ id now h,
   fun id now => nraInv_reset_from_dlq σ id now h⟩

/-- Claim C8, witness: the bundle instantiated on a one-pending-job store
that satisfies the invariant. -/
theorem nra_invariant_preserved_witness :
    (∀ id cmd mr pri ra tmo now,
      nraInv (add_job c8Store (mkJob id cmd mr pri ra tmo now)).1)
    ∧ (∀ id, nraInv (acquire_job_lock c8Store id).1)
    ∧ (∀ job base now, nraInv (schedule_retry c8Store job base now))
    ∧ (∀ job err now, nraInv (move_to_dlq c8Store job err now))
    ∧ (∀ id s out err base now,
        (∀ j, get_job c8Store id = some j → j.state = JobState.processing) →
        nraInv (process_job c8Store id s out err base now).1)
    ∧ (∀ id now, nraInv (reset_retryable_job_to_pending c8Store id now).1)
    ∧ (∀ id now, nraInv (reset_job_from_dlq c8Store id now).1) :=
  nra_invariant_preserved c8Store (by
    intro j hj hne
    have : j = mkJob "w" "echo w" 3 0 none none 0 := by simpa [c8Store] using hj
    subst this
    exact absurd rfl hne)

/-- Claim C10.  `get_dlq_jobs` delegates to `list_jobs` with the default
limit 100, newest first: its length is `min 100 (number of dead jobs)` — so
at most 100, and with more than 100 dead jobs some are omitted — every
returned job is a stored dead job, and every omitted dead job is no newer
than any returned one (the oldest are the ones dropped). -/
theorem get_dlq_jobs_spec (σ : List Job) :
    (get_dlq_jobs σ).length =
      min 100 ((σ.filter (fun j => decide (j.state = JobState.dead))).length)
    ∧ (∀ j ∈ get_dlq_jobs σ, j ∈ σ ∧ j.state = JobState.dead)
    ∧ (∀ a ∈ get_dlq_jobs σ, ∀ b ∈ σ, b.state = JobState.dead →
        b ∉ get_dlq_jobs σ → b.created_at ≤ a.created_at) := by
  have hperm := List.perm_insertionSort createdDesc
    (σ.filter (fun j => decide (j.state = JobState.dead)))
  refine ⟨?_, ?_, ?_⟩
  · show ((List.insertionSort createdDesc
        (σ.filter (fun j => decide (j.state = JobState.dead)))).take 100).length = _
    rw [List.length_take, hperm.length_eq]
  · intro j hj
    have hj2 : j ∈ List.insertionSort createdDesc
        (σ.filter (fun j => decide (j.state = JobState.dead))) :=
      List.mem_of_mem_take hj
    have := List.mem_filter.mp (hperm.mem_iff.mp hj2)
    exact ⟨this.1, of_decide_eq_true this.2⟩
  · intro a ha b hb hbd hbn
    have hs := List.sorted_insertionSort createdDesc
      (σ.filter (fun j => decide (j.state = JobState.dead)))
    set sl := List.insertionSort createdDesc
      (σ.filter (fun j => decide (j.state = JobState.dead))) with hsl
    have hbsl : b ∈ sl :=
      hperm.mem_iff.mpr (List.mem_filter.mpr ⟨hb, decide_eq_true hbd⟩)
    have hsplit : sl.take 100 ++ sl.drop 100 = sl := List.take_append_drop 100 sl
    have hbdrop : b ∈ sl.drop 100 := by
      rcases List.mem_append.mp (hsplit ▸ hbsl) with hm | hm
      · exact absurd hm hbn
      · exact hm
    have hpw : List.Pairwise createdDesc (sl.take 100 ++ sl.drop 100) := by
      rw [hsplit]
      exact hs
    exact (List.pairwise_append.mp hpw).2.2 a ha b hbdrop

/-- Claim C10, witness: instantiated on a store with two dead jobs and one
pending job. -/
theorem get_dlq_jobs_spec_witness :
    (get_dlq_jobs c10Store).length =
      min 100 ((c10Store.filter (fun j => decide (j.state = JobState.dead))).length)
    ∧ (∀ j ∈ get_dlq_jobs c10Store, j ∈ c10Store ∧ j.state = JobState.dead)
    ∧ (∀ a ∈ get_dlq_jobs c10Store, ∀ b ∈ c10Store, b.state = JobState.dead →
        b ∉ get_dlq_jobs c10Store → b.created_at ≤ a.created_at) :=
  get_dlq_jobs_spec c10Store

end QueueCTL
